import Mathlib

set_option linter.unusedVariables false

/-!
Shallow embedding of the PrivateCrowdfund contract
(src/contracts/PrivateCrowdfund.sol).

Addresses and FHE ciphertext handles are modelled as natural numbers.
The FHE coprocessor is modelled as a growing store of plaintexts indexed
by handle, together with an access-control list of (handle, principal)
decryption grants; every FHE operation allocates a fresh handle holding
the plaintext result of the corresponding 64-bit operation, and
FHE.allow prepends a grant.  uint64 arithmetic is modelled on Nat with
explicit reduction modulo 2^64 where the EVM wraps (the unchecked
contributor-count increment, explicit casts) and with an explicit
overflow error where Solidity 0.8 checked arithmetic reverts.
-/

namespace PrivFund

/-- The modulus 2^64 of the uint64 / euint64 value domain. -/
def U64MOD : Nat := 2 ^ 64

/-- FHE coprocessor state: plaintexts indexed by handle (the handle is the
position in the list), plus the decryption ACL as a list of
(handle, principal) grants.  Grants are additive; there is no revoke. -/
structure FheEnv where
  ct : List Nat
  acl : List (Nat × Nat)
  deriving Repr, DecidableEq

/-- Plaintext of a handle (0 for a handle that was never allocated,
matching the all-zero default ciphertext of an uninitialised euint64). -/
def FheEnv.ptv (e : FheEnv) (h : Nat) : Nat := e.ct.getD h 0

/-- Allocate a fresh handle holding plaintext v. -/
def FheEnv.alloc (e : FheEnv) (v : Nat) : Nat × FheEnv :=
  (e.ct.length, { e with ct := e.ct ++ [v] })

/-- FHE.allow: grant principal a the right to decrypt handle h. -/
def FheEnv.allow (e : FheEnv) (h : Nat) (a : Nat) : FheEnv :=
  { e with acl := (h, a) :: e.acl }

/-- FHE.fromExternal: import an externally encrypted 64-bit value. -/
def FheEnv.fromExternal (e : FheEnv) (v : Nat) : Nat × FheEnv :=
  e.alloc (v % U64MOD)

/-- FHE.add on euint64: homomorphic addition, wrapping modulo 2^64. -/
def FheEnv.addEnc (e : FheEnv) (h1 h2 : Nat) : Nat × FheEnv :=
  e.alloc ((e.ptv h1 + e.ptv h2) % U64MOD)

/-- FHE.asEuint64: trivial encryption of a plaintext uint64. -/
def FheEnv.asEuint64 (e : FheEnv) (v : Nat) : Nat × FheEnv :=
  e.alloc (v % U64MOD)

/-- FHE.asEbool: trivial encryption of a plaintext boolean (1 = true). -/
def FheEnv.asEbool (e : FheEnv) (b : Bool) : Nat × FheEnv :=
  e.alloc (if b then 1 else 0)

/-- FHE.ge on euint64: homomorphic greater-or-equal, result an ebool. -/
def FheEnv.geEnc (e : FheEnv) (h1 h2 : Nat) : Nat × FheEnv :=
  e.alloc (if e.ptv h2 ≤ e.ptv h1 then 1 else 0)

/-- May principal a request decryption of handle h. -/
def FheEnv.mayDecrypt (e : FheEnv) (h : Nat) (a : Nat) : Prop :=
  (h, a) ∈ e.acl

instance (e : FheEnv) (h a : Nat) : Decidable (e.mayDecrypt h a) := by
  unfold FheEnv.mayDecrypt
  infer_instance

/-- Contract storage of PrivateCrowdfund, plus the immutable configuration
(owner, treasury, the address of the contract itself and the Zama oracle
address, all fixed at construction). -/
structure Campaign where
  contractAddr : Nat
  owner : Nat
  treasury : Nat
  oracleAddr : Nat
  fundingGoal : Nat
  minContribution : Nat
  maxContribution : Nat
  deadline : Nat
  totalRaisedEnc : Nat
  lastGoalReachedCache : Nat
  hasContributedMap : Nat → Bool
  contributionAmounts : Nat → Nat
  contributorCount : Nat
  totalInitialized : Bool
  campaignFinalized : Bool

/-- Emitted events. -/
inductive Ev where
  | Contributed (contributor : Nat) (isFirstTime : Bool) (timestamp : Nat)
  | CampaignEnded (goalMet : Bool) (timestamp : Nat)
  | GoalUpdated (oldGoal newGoal : Nat)
  | DeadlineExtended (oldDeadline newDeadline : Nat)
  deriving Repr, DecidableEq

/-- Revert reasons: the custom errors of the contract plus one constructor
per distinct require message, plus the checked-arithmetic panic. -/
inductive Err where
  | NotOwner
  | CampaignExpired
  | CampaignAlreadyFinalized
  | InvalidGoal
  | InvalidDeadline
  | InvalidContributionLimits
  | NoContributions
  | InvalidAddresses
  | AmountZero
  | AmountOutOfBounds
  | TransferFailed
  | CampaignStillActive
  | AlreadyFinalizedRequire
  | ArithmeticOverflow
  deriving Repr, DecidableEq

/-- Full machine state: contract storage, FHE coprocessor state, and the
event log of the campaign so far. -/
structure S where
  camp : Campaign
  env : FheEnv
  events : List Ev

/-- The campaignActive modifier: revert CampaignExpired when
block.timestamp >= deadline, then CampaignAlreadyFinalized when the
campaign was finalised. -/
def campaignActiveCheck (now : Nat) (c : Campaign) : Except Err Unit :=
  if c.deadline ≤ now then .error .CampaignExpired
  else if c.campaignFinalized then .error .CampaignAlreadyFinalized
  else .ok ()

/-- Internal _updateGoalStatus: recompute the encrypted goal status cache
and grant decryption of it to the contract, the owner, msg.sender and the
oracle.  Returns the new cache handle with the new state. -/
def updateGoalStatusFn (sender : Nat) (s : S) : Nat × S :=
  let c := s.camp
  let p :=
    if !c.totalInitialized then
      s.env.asEbool false
    else
      let q := s.env.asEuint64 c.fundingGoal
      q.2.geEnc c.totalRaisedEnc q.1
  let h := p.1
  let env := (((p.2.allow h c.contractAddr).allow h c.owner).allow h sender).allow h c.oracleAddr
  (h, { s with camp := { c with lastGoalReachedCache := h }, env := env })

/-- Internal _setDecryptionPermissions: grant the aggregate total to the
contract, the owner and the oracle, and the per-contributor record of
msg.sender to msg.sender only. -/
def setDecryptionPermissions (sender : Nat) (s : S) : S :=
  let c := s.camp
  let env := ((s.env.allow c.totalRaisedEnc c.contractAddr).allow c.totalRaisedEnc c.owner).allow c.totalRaisedEnc c.oracleAddr
  let env := env.allow (c.contributionAmounts sender) sender
  { s with env := env }

/-- The revert checks of contributeUSDC, in source order: the
campaignActive modifier, the zero-amount require, the bounds require,
then the USDC transferFrom (whose reported outcome is the transferOk
parameter) with its success require. -/
def contributeChecks (now amount6 : Nat) (transferOk : Bool) (s : S) : Except Err Unit :=
  match campaignActiveCheck now s.camp with
  | .error e => .error e
  | .ok _ =>
    if amount6 = 0 then .error .AmountZero
    else if amount6 < s.camp.minContribution || s.camp.maxContribution < amount6 then .error .AmountOutOfBounds
    else if transferOk then .ok ()
    else .error .TransferFailed

/-- The state mutation of contributeUSDC once every check passed:
bring in the encrypted amount, fold it into the aggregate (direct
assignment when uninitialised, homomorphic addition otherwise), fold it
into the per-contributor record (creation plus unchecked counter
increment on a first contribution, homomorphic addition otherwise), set
decryption permissions, emit Contributed, and recompute the goal status. -/
def contributeEffects (now sender encVal : Nat) (s : S) : S :=
  let p := s.env.fromExternal encVal
  let encAmount := p.1
  let s1 : S := { s with env := p.2 }
  let s2 : S :=
    if !s1.camp.totalInitialized then
      { s1 with camp := { s1.camp with totalRaisedEnc := encAmount, totalInitialized := true } }
    else
      let q := s1.env.addEnc s1.camp.totalRaisedEnc encAmount
      { s1 with camp := { s1.camp with totalRaisedEnc := q.1 }, env := q.2 }
  let isFirst := !(s2.camp.hasContributedMap sender)
  let s3 : S :=
    if isFirst then
      { s2 with camp := { s2.camp with
          hasContributedMap := fun a => if a = sender then true else s2.camp.hasContributedMap a,
          contributionAmounts := fun a => if a = sender then encAmount else s2.camp.contributionAmounts a,
          contributorCount := (s2.camp.contributorCount + 1) % U64MOD } }
    else
      let q := s2.env.addEnc (s2.camp.contributionAmounts sender) encAmount
      let c3 := { s2.camp with contributionAmounts := fun a => if a = sender then q.1 else s2.camp.contributionAmounts a }
      { s2 with camp := c3, env := q.2 }
  let s4 := setDecryptionPermissions sender s3
  let s5 : S := { s4 with events := s4.events ++ [Ev.Contributed sender isFirst now] }
  (updateGoalStatusFn sender s5).2

/-- contributeUSDC: checks in source order, then the effects. -/
def contributeUSDC (now sender amount6 encVal : Nat) (transferOk : Bool) (s : S) : Except Err S :=
  match contributeChecks now amount6 transferOk s with
  | .error e => .error e
  | .ok _ => .ok (contributeEffects now sender encVal s)

/-- checkGoalReached: externally callable recomputation (no modifier). -/
def checkGoalReached (sender : Nat) (s : S) : Nat × S :=
  updateGoalStatusFn sender s

/-- finalizeCampaign: requires the deadline to have passed and the
campaign not yet finalised; sets the finalised flag and emits
CampaignEnded with goalMet computed as the totalInitialized flag. -/
def finalizeCampaign (now : Nat) (s : S) : Except Err S :=
  if now < s.camp.deadline then .error .CampaignStillActive
  else if s.camp.campaignFinalized then .error .AlreadyFinalizedRequire
  else
    let goalMet := s.camp.totalInitialized
    .ok { s with
      camp := { s.camp with campaignFinalized := true },
      events := s.events ++ [Ev.CampaignEnded goalMet now] }

/-- updateGoal: onlyOwner, campaignActive, nonzero goal; sets the goal,
recomputes the goal status, emits GoalUpdated. -/
def updateGoal (now sender newGoalMicro : Nat) (s : S) : Except Err S :=
  if sender ≠ s.camp.owner then .error .NotOwner
  else match campaignActiveCheck now s.camp with
  | .error e => .error e
  | .ok _ =>
    if newGoalMicro = 0 then .error .InvalidGoal
    else
      let oldGoal := s.camp.fundingGoal
      let s1 : S := { s with camp := { s.camp with fundingGoal := newGoalMicro } }
      let s2 := (updateGoalStatusFn sender s1).2
      .ok { s2 with events := s2.events ++ [Ev.GoalUpdated oldGoal newGoalMicro] }

/-- extendDeadline: onlyOwner, not finalised, nonzero days; checked
uint64 arithmetic on additionalDays * 86400 and on the new deadline
(Solidity 0.8 reverts on overflow); emits DeadlineExtended.  Note that
there is no campaignActive modifier, so an expired campaign can be
extended. -/
def extendDeadline (now sender additionalDays : Nat) (s : S) : Except Err S :=
  if sender ≠ s.camp.owner then .error .NotOwner
  else if s.camp.campaignFinalized then .error .AlreadyFinalizedRequire
  else if additionalDays = 0 then .error .InvalidDeadline
  else if U64MOD ≤ additionalDays * 86400 then .error .ArithmeticOverflow
  else if U64MOD ≤ s.camp.deadline + additionalDays * 86400 then .error .ArithmeticOverflow
  else
    let oldD := s.camp.deadline
    .ok { s with
      camp := { s.camp with deadline := oldD + additionalDays * 86400 },
      events := s.events ++ [Ev.DeadlineExtended oldD (oldD + additionalDays * 86400)] }

/-- grantPublicDecrypt: grant the goal status cache to the contract, the
owner and the oracle, and (when initialised) the aggregate total to the
contract, the owner and the oracle. -/
def grantPublicDecrypt (s : S) : S :=
  let c := s.camp
  let env := ((s.env.allow c.lastGoalReachedCache c.contractAddr).allow c.lastGoalReachedCache c.owner).allow c.lastGoalReachedCache c.oracleAddr
  let env :=
    if c.totalInitialized then
      ((env.allow c.totalRaisedEnc c.contractAddr).allow c.totalRaisedEnc c.owner).allow c.totalRaisedEnc c.oracleAddr
    else env
  { s with env := env }

/-- getTotalRaised: gated by the hasTotalInitialized modifier. -/
def getTotalRaised (s : S) : Except Err Nat :=
  if s.camp.totalInitialized then .ok s.camp.totalRaisedEnc
  else .error .NoContributions

/-- getContributionAmount: requires an existing record. -/
def getContributionAmount (contributor : Nat) (s : S) : Option Nat :=
  if s.camp.hasContributedMap contributor then some (s.camp.contributionAmounts contributor)
  else none

/-- isActive view. -/
def isActive (now : Nat) (s : S) : Bool :=
  now < s.camp.deadline && !s.camp.campaignFinalized

/-- The constructor: validates the parameters and produces the initial
state.  The deadline computation mirrors the source: a checked uint64
multiplication durationDays * 86400, a uint256 addition to the current
time, then a truncating cast to uint64. -/
def constructCampaign (nowAtDeploy deployer contractAddr oracleAddr goalMicro durationDays minC maxC usdcAddr treasuryAddr : Nat) : Except Err S :=
  if goalMicro = 0 then .error .InvalidGoal
  else if durationDays = 0 then .error .InvalidDeadline
  else if minC = 0 || maxC < minC then .error .InvalidContributionLimits
  else if usdcAddr = 0 || treasuryAddr = 0 then .error .InvalidAddresses
  else if U64MOD ≤ durationDays * 86400 then .error .ArithmeticOverflow
  else .ok {
    camp := {
      contractAddr := contractAddr
      owner := deployer
      treasury := treasuryAddr
      oracleAddr := oracleAddr
      fundingGoal := goalMicro
      minContribution := minC
      maxContribution := maxC
      deadline := (nowAtDeploy + durationDays * 86400) % U64MOD
      totalRaisedEnc := 0
      lastGoalReachedCache := 0
      hasContributedMap := fun _ => false
      contributionAmounts := fun _ => 0
      contributorCount := 0
      totalInitialized := false
      campaignFinalized := false }
    env := { ct := [], acl := [] }
    events := [] }

/-- External transactions against the contract. -/
inductive Op where
  | contribute (now sender amount6 encVal : Nat) (transferOk : Bool)
  | checkGoal (now sender : Nat)
  | finalize (now : Nat)
  | updateGoal (now sender newGoal : Nat)
  | extendDeadline (now sender days : Nat)
  | grantPublic
  deriving Repr, DecidableEq

/-- Is the operation a contribution. -/
def Op.isContribute : Op → Bool
  | .contribute _ _ _ _ _ => true
  | _ => false

/-- Execute one transaction, propagating the revert reason on failure. -/
def step (s : S) : Op → Except Err S
  | .contribute now sender a v tOk => contributeUSDC now sender a v tOk s
  | .checkGoal _ sender => .ok (checkGoalReached sender s).2
  | .finalize now => finalizeCampaign now s
  | .updateGoal now sender g => updateGoal now sender g s
  | .extendDeadline now sender d => extendDeadline now sender d s
  | .grantPublic => .ok (grantPublicDecrypt s)

/-- Execute one transaction with EVM revert semantics: a failed
transaction leaves the state unchanged. -/
def execOp (s : S) (op : Op) : S :=
  match step s op with
  | .ok s2 => s2
  | .error _ => s

/-- Execute a sequence of transactions. -/
def exec (s : S) (ops : List Op) : S := ops.foldl execOp s

/-- Decrypted value of the aggregate total handle. -/
def decryptTotal (s : S) : Nat := s.env.ptv s.camp.totalRaisedEnc

/-- Decrypted value of the goal status cache handle (1 encodes true). -/
def decryptStatus (s : S) : Nat := s.env.ptv s.camp.lastGoalReachedCache

/-- Decrypted value of the record of one contributor. -/
def decryptRecord (s : S) (a : Nat) : Nat := s.env.ptv (s.camp.contributionAmounts a)

/-! ### Helper lemmas about the FHE environment -/

/-- Reading the first freshly appended plaintext. -/
theorem getD_append_len (l : List Nat) (v : Nat) (rest : List Nat) :
    (l ++ v :: rest).getD l.length 0 = v := by
  rw [List.getD_append_right _ _ _ _ (Nat.le_refl _)]
  simp

/-- Reading the second freshly appended plaintext. -/
theorem getD_append_len_succ (l : List Nat) (v w : Nat) (rest : List Nat) :
    (l ++ v :: w :: rest).getD (l.length + 1) 0 = w := by
  rw [List.getD_append_right _ _ _ _ (Nat.le_succ_of_le (Nat.le_refl _))]
  simp

/-- Reading an old handle is unchanged by appended plaintexts. -/
theorem getD_append_old (l rest : List Nat) (h : Nat) (hh : h < l.length) :
    (l ++ rest).getD h 0 = l.getD h 0 :=
  List.getD_append _ _ _ _ hh

/-- Case analysis of contributeEffects: aggregate uninitialised and the
contributor has no prior record (the campaign-first contribution).  The
fresh amount handle n = |ct| becomes both the aggregate handle and
the contributor record handle; the goal encoding takes handle n+1, the
goal comparison handle n+2 becomes the cache. -/
theorem contributeEffects_uninit_first (now sender v : Nat) (s : S)
    (hI : s.camp.totalInitialized = false) (hF : s.camp.hasContributedMap sender = false) :
    contributeEffects now sender v s =
    { camp := { s.camp with
        totalRaisedEnc := s.env.ct.length
        totalInitialized := true
        hasContributedMap := fun a => if a = sender then true else s.camp.hasContributedMap a
        contributionAmounts := fun a => if a = sender then s.env.ct.length else s.camp.contributionAmounts a
        contributorCount := (s.camp.contributorCount + 1) % U64MOD
        lastGoalReachedCache := s.env.ct.length + 2 }
      env := { ct := s.env.ct ++ [v % U64MOD, s.camp.fundingGoal % U64MOD,
                 if s.camp.fundingGoal % U64MOD ≤ v % U64MOD then 1 else 0]
               acl := (s.env.ct.length + 2, s.camp.oracleAddr) ::
                 (s.env.ct.length + 2, sender) ::
                 (s.env.ct.length + 2, s.camp.owner) ::
                 (s.env.ct.length + 2, s.camp.contractAddr) ::
                 (s.env.ct.length, sender) ::
                 (s.env.ct.length, s.camp.oracleAddr) ::
                 (s.env.ct.length, s.camp.owner) ::
                 (s.env.ct.length, s.camp.contractAddr) :: s.env.acl }
      events := s.events ++ [Ev.Contributed sender true now] } := by
  simp only [contributeEffects, setDecryptionPermissions, updateGoalStatusFn,
    FheEnv.fromExternal, FheEnv.addEnc, FheEnv.asEuint64, FheEnv.asEbool, FheEnv.geEnc,
    FheEnv.alloc, FheEnv.allow, FheEnv.ptv, hI, hF, Bool.not_false, Bool.not_true,
    if_true, if_false, ite_true, ite_false, List.append_assoc, List.singleton_append,
    List.cons_append, List.length_append, List.length_cons, List.length_nil,
    getD_append_len, getD_append_len_succ, List.nil_append]
  simp [Nat.add_assoc]

/-- Case analysis of contributeEffects: aggregate uninitialised but the
contributor map already true for the sender (no reachable state is of
this shape, but the function is total).  Only the aggregate facts of
this case are ever used. -/
theorem contributeEffects_uninit_repeat (now sender v : Nat) (s : S)
    (hI : s.camp.totalInitialized = false) (hF : s.camp.hasContributedMap sender = true) :
    (contributeEffects now sender v s).camp.totalInitialized = true ∧
    (contributeEffects now sender v s).camp.totalRaisedEnc = s.env.ct.length ∧
    decryptTotal (contributeEffects now sender v s) = v % U64MOD := by
  simp only [contributeEffects, setDecryptionPermissions, updateGoalStatusFn, decryptTotal,
    FheEnv.fromExternal, FheEnv.addEnc, FheEnv.asEuint64, FheEnv.asEbool, FheEnv.geEnc,
    FheEnv.alloc, FheEnv.allow, FheEnv.ptv, hI, hF, Bool.not_false, Bool.not_true,
    if_true, if_false, ite_true, ite_false, List.append_assoc, List.singleton_append,
    List.cons_append, List.length_append, List.length_cons, List.length_nil,
    getD_append_len, getD_append_len_succ, List.nil_append]
  simp [hI, hF, Nat.add_assoc, List.getElem?_append_right, List.getElem?_append_left,
    List.getElem_append_right, List.getElem_append_left]

/-- Case analysis of contributeEffects: aggregate already initialised and
the sender contributes for the first time.  Handle n = |ct| is the
fresh amount and becomes the record of the sender, n+1 the new
aggregate, n+2 the goal encoding, n+3 the new cache. -/
theorem contributeEffects_init_first (now sender v : Nat) (s : S)
    (hI : s.camp.totalInitialized = true) (hF : s.camp.hasContributedMap sender = false)
    (hwf : s.camp.totalRaisedEnc < s.env.ct.length) :
    contributeEffects now sender v s =
    { camp := { s.camp with
        totalRaisedEnc := s.env.ct.length + 1
        hasContributedMap := fun a => if a = sender then true else s.camp.hasContributedMap a
        contributionAmounts := fun a => if a = sender then s.env.ct.length else s.camp.contributionAmounts a
        contributorCount := (s.camp.contributorCount + 1) % U64MOD
        lastGoalReachedCache := s.env.ct.length + 3 }
      env := { ct := s.env.ct ++ [v % U64MOD, (decryptTotal s + v % U64MOD) % U64MOD,
                 s.camp.fundingGoal % U64MOD,
                 if s.camp.fundingGoal % U64MOD ≤ (decryptTotal s + v % U64MOD) % U64MOD then 1 else 0]
               acl := (s.env.ct.length + 3, s.camp.oracleAddr) ::
                 (s.env.ct.length + 3, sender) ::
                 (s.env.ct.length + 3, s.camp.owner) ::
                 (s.env.ct.length + 3, s.camp.contractAddr) ::
                 (s.env.ct.length, sender) ::
                 (s.env.ct.length + 1, s.camp.oracleAddr) ::
                 (s.env.ct.length + 1, s.camp.owner) ::
                 (s.env.ct.length + 1, s.camp.contractAddr) :: s.env.acl }
      events := s.events ++ [Ev.Contributed sender true now] } := by
  simp only [contributeEffects, setDecryptionPermissions, updateGoalStatusFn, decryptTotal,
    FheEnv.fromExternal, FheEnv.addEnc, FheEnv.asEuint64, FheEnv.asEbool, FheEnv.geEnc,
    FheEnv.alloc, FheEnv.allow, FheEnv.ptv, hI, hF, Bool.not_false, Bool.not_true,
    if_true, if_false, ite_true, ite_false, List.append_assoc, List.singleton_append,
    List.cons_append, List.length_append, List.length_cons, List.length_nil,
    getD_append_len, getD_append_len_succ, List.nil_append,
    getD_append_old _ _ _ hwf]
  simp [hI, hF, hwf, Nat.add_assoc, List.getElem?_append_right, List.getElem?_append_left,
    List.getElem_append_right, List.getElem_append_left]

/-- Case analysis of contributeEffects: aggregate already initialised and
the sender already has a record.  Handle n = |ct| is the imported
amount, n+1 the new aggregate, n+2 the new record of the sender, n+3
the goal encoding, n+4 the new cache. -/
theorem contributeEffects_init_repeat (now sender v : Nat) (s : S)
    (hI : s.camp.totalInitialized = true) (hF : s.camp.hasContributedMap sender = true)
    (hwf : s.camp.totalRaisedEnc < s.env.ct.length)
    (hwfr : s.camp.contributionAmounts sender < s.env.ct.length) :
    contributeEffects now sender v s =
    { camp := { s.camp with
        totalRaisedEnc := s.env.ct.length + 1
        contributionAmounts := fun a => if a = sender then s.env.ct.length + 2 else s.camp.contributionAmounts a
        lastGoalReachedCache := s.env.ct.length + 4 }
      env := { ct := s.env.ct ++ [v % U64MOD, (decryptTotal s + v % U64MOD) % U64MOD,
                 (decryptRecord s sender + v % U64MOD) % U64MOD,
                 s.camp.fundingGoal % U64MOD,
                 if s.camp.fundingGoal % U64MOD ≤ (decryptTotal s + v % U64MOD) % U64MOD then 1 else 0]
               acl := (s.env.ct.length + 4, s.camp.oracleAddr) ::
                 (s.env.ct.length + 4, sender) ::
                 (s.env.ct.length + 4, s.camp.owner) ::
                 (s.env.ct.length + 4, s.camp.contractAddr) ::
                 (s.env.ct.length + 2, sender) ::
                 (s.env.ct.length + 1, s.camp.oracleAddr) ::
                 (s.env.ct.length + 1, s.camp.owner) ::
                 (s.env.ct.length + 1, s.camp.contractAddr) :: s.env.acl }
      events := s.events ++ [Ev.Contributed sender false now] } := by
  simp only [contributeEffects, setDecryptionPermissions, updateGoalStatusFn, decryptTotal,
    decryptRecord,
    FheEnv.fromExternal, FheEnv.addEnc, FheEnv.asEuint64, FheEnv.asEbool, FheEnv.geEnc,
    FheEnv.alloc, FheEnv.allow, FheEnv.ptv, hI, hF, Bool.not_false, Bool.not_true,
    if_true, if_false, ite_true, ite_false, List.append_assoc, List.singleton_append,
    List.cons_append, List.length_append, List.length_cons, List.length_nil,
    getD_append_len, getD_append_len_succ, List.nil_append,
    getD_append_old _ _ _ hwf, getD_append_old _ _ _ hwfr]
  simp [hI, hF, hwf, hwfr, Nat.add_assoc, List.getElem?_append_right, List.getElem?_append_left,
    List.getElem_append_right, List.getElem_append_left]

/-- When the campaign is active, the amount is nonzero and within
bounds, and the transfer succeeded, every check passes. -/
theorem contributeChecks_ok (now amount6 : Nat) (s : S)
    (h1 : now < s.camp.deadline) (h2 : s.camp.campaignFinalized = false)
    (h3 : amount6 ≠ 0) (h4 : s.camp.minContribution ≤ amount6)
    (h5 : amount6 ≤ s.camp.maxContribution) :
    contributeChecks now amount6 true s = .ok () := by
  simp [contributeChecks, campaignActiveCheck, Nat.not_le.mpr h1, h2, h3,
    Nat.not_lt.mpr h4, Nat.not_lt.mpr h5]

/-- An accepted contribution is exactly the effects applied. -/
theorem contributeUSDC_ok (now sender amount6 encVal : Nat) (s : S)
    (h1 : now < s.camp.deadline) (h2 : s.camp.campaignFinalized = false)
    (h3 : amount6 ≠ 0) (h4 : s.camp.minContribution ≤ amount6)
    (h5 : amount6 ≤ s.camp.maxContribution) :
    contributeUSDC now sender amount6 encVal true s = .ok (contributeEffects now sender encVal s) := by
  rw [contributeUSDC, contributeChecks_ok now amount6 s h1 h2 h3 h4 h5]

/-- The effects of a contribution never change the campaign
configuration, the finalised flag, or the event history before the
appended Contributed event. -/
theorem contributeEffects_config (now sender v : Nat) (s : S) :
    (contributeEffects now sender v s).camp.campaignFinalized = s.camp.campaignFinalized ∧
    (contributeEffects now sender v s).camp.deadline = s.camp.deadline ∧
    (contributeEffects now sender v s).camp.minContribution = s.camp.minContribution ∧
    (contributeEffects now sender v s).camp.maxContribution = s.camp.maxContribution ∧
    (contributeEffects now sender v s).camp.fundingGoal = s.camp.fundingGoal ∧
    (contributeEffects now sender v s).camp.owner = s.camp.owner ∧
    (contributeEffects now sender v s).camp.oracleAddr = s.camp.oracleAddr ∧
    (contributeEffects now sender v s).camp.contractAddr = s.camp.contractAddr ∧
    (contributeEffects now sender v s).camp.treasury = s.camp.treasury ∧
    (contributeEffects now sender v s).camp.totalInitialized = true := by
  cases hI : s.camp.totalInitialized <;> cases hF : s.camp.hasContributedMap sender <;>
    simp [contributeEffects, setDecryptionPermissions, updateGoalStatusFn, FheEnv.fromExternal,
      FheEnv.addEnc, FheEnv.asEuint64, FheEnv.asEbool, FheEnv.geEnc, FheEnv.alloc,
      FheEnv.allow, hI, hF]

/-- updateGoalStatusFn changes no storage apart from the cache handle
and the FHE environment. -/
theorem updateGoalStatusFn_config (sender : Nat) (s : S) :
    (updateGoalStatusFn sender s).2.camp.campaignFinalized = s.camp.campaignFinalized ∧
    (updateGoalStatusFn sender s).2.camp.totalInitialized = s.camp.totalInitialized ∧
    (updateGoalStatusFn sender s).2.camp.totalRaisedEnc = s.camp.totalRaisedEnc ∧
    (updateGoalStatusFn sender s).2.camp.deadline = s.camp.deadline ∧
    (updateGoalStatusFn sender s).2.camp.contributorCount = s.camp.contributorCount ∧
    (updateGoalStatusFn sender s).2.events = s.events := by
  cases hI : s.camp.totalInitialized <;>
    simp [updateGoalStatusFn, FheEnv.asEuint64, FheEnv.asEbool, FheEnv.geEnc,
      FheEnv.alloc, FheEnv.allow, hI]

/-- Is the operation the finalize transaction. -/
def Op.isFinalize : Op → Bool
  | .finalize _ => true
  | _ => false

/-- A fallback state used only to totalise the extraction of the demo
deployment below. -/
def fallbackS : S :=
  { camp := {
      contractAddr := 0
      owner := 0
      treasury := 0
      oracleAddr := 0
      fundingGoal := 0
      minContribution := 0
      maxContribution := 0
      deadline := 0
      totalRaisedEnc := 0
      lastGoalReachedCache := 0
      hasContributedMap := fun _ => false
      contributionAmounts := fun _ => 0
      contributorCount := 0
      totalInitialized := false
      campaignFinalized := false }
    env := { ct := [], acl := [] }
    events := [] }

/-- The demo deployment of the source documentation: goal 1000 USDC,
30 days, bounds 1 to 100 USDC, deployed at time 0 by owner 1 with
contract address 2, oracle address 3, USDC address 7 and treasury 8.
Its deadline is 2592000. -/
def demoState : S :=
  ((constructCampaign 0 1 2 3 1000000000 30 1000000 100000000 7 8).toOption).getD fallbackS

/-- The campaignActive modifier either passes or reverts with one of
its two errors. -/
theorem campaignActiveCheck_cases (now : Nat) (c : Campaign) :
    campaignActiveCheck now c = .ok () ∨
    campaignActiveCheck now c = .error Err.CampaignExpired ∨
    campaignActiveCheck now c = .error Err.CampaignAlreadyFinalized := by
  unfold campaignActiveCheck
  split
  · exact Or.inr (Or.inl rfl)
  · split
    · exact Or.inr (Or.inr rfl)
    · exact Or.inl rfl

/-- A reverted transaction leaves the state unchanged. -/
theorem execOp_of_error (s : S) (op : Op) (e : Err) (h : step s op = .error e) :
    execOp s op = s := by
  simp [execOp, h]

/-- A successful finalize sets the finalised flag. -/
theorem finalizeCampaign_ok (now : Nat) (s s2 : S) (h : finalizeCampaign now s = .ok s2) :
    s2.camp.campaignFinalized = true := by
  unfold finalizeCampaign at h
  split at h
  · cases h
  · split at h
    · cases h
    · cases h
      rfl

/-- A successful step either preserves the finalised flag or is the
finalize transaction, which sets it. -/
theorem step_ok_finalized (s s2 : S) (op : Op) (h : step s op = .ok s2) :
    s2.camp.campaignFinalized = s.camp.campaignFinalized ∨
    (op.isFinalize = true ∧ s2.camp.campaignFinalized = true) := by
  cases op with
  | contribute now sender a v tOk =>
      left
      simp only [step, contributeUSDC] at h
      cases hc : contributeChecks now a tOk s with
      | error e => rw [hc] at h; simp at h
      | ok u => rw [hc] at h; cases h; exact (contributeEffects_config now sender v s).1
  | checkGoal now sender =>
      left
      simp only [step, checkGoalReached] at h
      cases h
      exact (updateGoalStatusFn_config sender s).1
  | finalize now =>
      exact Or.inr ⟨rfl, finalizeCampaign_ok now s s2 h⟩
  | updateGoal now sender g =>
      left
      revert h
      simp only [step]
      unfold updateGoal
      split
      · intro h; cases h
      · split
        · intro h; cases h
        · split
          · intro h; cases h
          · intro h
            cases h
            exact (updateGoalStatusFn_config sender { s with camp := { s.camp with fundingGoal := g } }).1
  | extendDeadline now sender d =>
      left
      simp only [step] at h
      unfold extendDeadline at h
      split at h
      · cases h
      · split at h
        · cases h
        · split at h
          · cases h
          · split at h
            · cases h
            · split at h
              · cases h
              · cases h; rfl
  | grantPublic =>
      left
      simp only [step] at h
      cases h
      rfl

/-! ### Claim C3: bounds are checked before the transfer, and any
failure mutates nothing -/

/-- C3.  A contribution whose stated amount is below minContribution or
above maxContribution reverts and never with the transfer error (the
bounds require precedes the transfer, so no transfer is attempted); a
contribution that passes every earlier check but whose transfer reports
failure reverts with the transfer error; and every reverted
contribution leaves the whole state — aggregate, initialized flag,
records, contributor count — unchanged. -/
theorem rejection_no_mutation_and_check_order (s : S) (now sender amount6 encVal : Nat) (tOk : Bool) :
    ((amount6 < s.camp.minContribution ∨ s.camp.maxContribution < amount6) →
      ∃ e, contributeUSDC now sender amount6 encVal tOk s = .error e ∧ e ≠ Err.TransferFailed) ∧
    (now < s.camp.deadline → s.camp.campaignFinalized = false → amount6 ≠ 0 →
      s.camp.minContribution ≤ amount6 → amount6 ≤ s.camp.maxContribution →
      contributeUSDC now sender amount6 encVal false s = .error Err.TransferFailed) ∧
    (∀ e, contributeUSDC now sender amount6 encVal tOk s = .error e →
      execOp s (.contribute now sender amount6 encVal tOk) = s) := by
  refine ⟨?_, ?_, ?_⟩
  · intro hb
    have hb2 : (decide (amount6 < s.camp.minContribution) ||
        decide (s.camp.maxContribution < amount6)) = true := by
      rcases hb with h | h <;> simp [h]
    rcases campaignActiveCheck_cases now s.camp with hac | hac | hac
    · by_cases h0 : amount6 = 0
      · exact ⟨Err.AmountZero, by simp [contributeUSDC, contributeChecks, hac, h0], by simp⟩
      · exact ⟨Err.AmountOutOfBounds, by simp [contributeUSDC, contributeChecks, hac, h0, hb2], by simp⟩
    · exact ⟨Err.CampaignExpired, by simp [contributeUSDC, contributeChecks, hac], by simp⟩
    · exact ⟨Err.CampaignAlreadyFinalized, by simp [contributeUSDC, contributeChecks, hac], by simp⟩
  · intro h1 h2 h3 h4 h5
    simp [contributeUSDC, contributeChecks, campaignActiveCheck, Nat.not_le.mpr h1, h2, h3,
      Nat.not_lt.mpr h4, Nat.not_lt.mpr h5]
  · intro e he
    exact execOp_of_error s _ e (by simpa [step] using he)

/-- C3 witness: at the demo deployment, an amount of 5 micro-USDC is
below the minimum and reverts without reaching the transfer, the same
amount in bounds with a failing transfer reverts with the transfer
error, and the reverted attempt changes nothing. -/
theorem rejection_no_mutation_witness :
    (∃ e, contributeUSDC 5 9 5 5 true demoState = .error e ∧ e ≠ Err.TransferFailed) ∧
    contributeUSDC 5 9 2000000 2000000 false demoState = .error Err.TransferFailed ∧
    execOp demoState (.contribute 5 9 5 5 true) = demoState := by
  refine ⟨(rejection_no_mutation_and_check_order demoState 5 9 5 5 true).1 (Or.inl (by decide)),
    (rejection_no_mutation_and_check_order demoState 5 9 2000000 2000000 false).2.1
      (by decide) (by decide) (by decide) (by decide) (by decide),
    (rejection_no_mutation_and_check_order demoState 5 9 5 5 true).2.2 Err.AmountOutOfBounds ?_⟩
  rfl

/-! ### Claim C4: lifecycle gating (corrected) -/

/-- C4 counterexample.  In the reachable state obtained by finalising
the demo campaign at its deadline, a later contribution attempt fails
with CampaignExpired, not with CampaignAlreadyFinalized as the claim
states: the deadline check of the campaignActive modifier runs first,
and finalisation is only possible once the deadline has passed. -/
theorem post_finalize_error_is_expired :
    (exec demoState [.finalize 2592000]).camp.campaignFinalized = true ∧
    step (exec demoState [.finalize 2592000]) (.contribute 2592000 9 2000000 2000000 true) =
      .error Err.CampaignExpired ∧
    Err.CampaignExpired ≠ Err.CampaignAlreadyFinalized := by
  refine ⟨by decide, rfl, by decide⟩

/-- C4 amended.  At or after the deadline every mutating ledger
operation (contribution, owner goal update) fails with CampaignExpired
— also when the campaign is already finalised, which is the only
reachable shape of a post-finalize state since finalize requires the
deadline to have passed and the deadline can no longer be extended;
CampaignAlreadyFinalized is reported exactly in the (unreachable
without time going backwards) finalised states before the deadline.
finalize itself fails before the deadline, fails when repeated, and the
finalised flag is set only by finalize and never unset. -/
theorem lifecycle_gating_amended (s : S) (now sender amount6 encVal newGoal : Nat) (tOk : Bool) :
    (s.camp.deadline ≤ now →
      contributeUSDC now sender amount6 encVal tOk s = .error Err.CampaignExpired ∧
      updateGoal now s.camp.owner newGoal s = .error Err.CampaignExpired) ∧
    (s.camp.campaignFinalized = true → now < s.camp.deadline →
      contributeUSDC now sender amount6 encVal tOk s = .error Err.CampaignAlreadyFinalized ∧
      updateGoal now s.camp.owner newGoal s = .error Err.CampaignAlreadyFinalized) ∧
    (now < s.camp.deadline → finalizeCampaign now s = .error Err.CampaignStillActive) ∧
    (s.camp.campaignFinalized = true → s.camp.deadline ≤ now →
      finalizeCampaign now s = .error Err.AlreadyFinalizedRequire) ∧
    (∀ op : Op, s.camp.campaignFinalized = true → (execOp s op).camp.campaignFinalized = true) ∧
    (∀ op : Op, op.isFinalize = false →
      (execOp s op).camp.campaignFinalized = s.camp.campaignFinalized) := by
  refine ⟨?_, ?_, ?_, ?_, ?_, ?_⟩
  · intro h
    exact ⟨by simp [contributeUSDC, contributeChecks, campaignActiveCheck, h],
      by simp [updateGoal, campaignActiveCheck, h]⟩
  · intro hf h
    exact ⟨by simp [contributeUSDC, contributeChecks, campaignActiveCheck, hf, Nat.not_le.mpr h],
      by simp [updateGoal, campaignActiveCheck, hf, Nat.not_le.mpr h]⟩
  · intro h
    simp [finalizeCampaign, h]
  · intro hf h
    simp [finalizeCampaign, hf, Nat.not_lt.mpr h]
  · intro op hf
    cases hstep : step s op with
    | error e => rw [execOp_of_error s op e hstep]; exact hf
    | ok s2 =>
        have : execOp s op = s2 := by simp [execOp, hstep]
        rw [this]
        rcases step_ok_finalized s s2 op hstep with h | h
        · rw [h]; exact hf
        · exact h.2
  · intro op hop
    cases hstep : step s op with
    | error e => rw [execOp_of_error s op e hstep]
    | ok s2 =>
        have : execOp s op = s2 := by simp [execOp, hstep]
        rw [this]
        rcases step_ok_finalized s s2 op hstep with h | h
        · exact h
        · rw [hop] at h; cases h.1

/-- C4 witness: concrete instances of every conjunct at the demo
deployment. -/
theorem lifecycle_gating_witness :
    (contributeUSDC 2592000 9 2000000 2000000 true demoState = .error Err.CampaignExpired ∧
      updateGoal 2592000 demoState.camp.owner 5 demoState = .error Err.CampaignExpired) ∧
    finalizeCampaign 5 demoState = .error Err.CampaignStillActive ∧
    (execOp demoState .grantPublic).camp.campaignFinalized = demoState.camp.campaignFinalized := by
  refine ⟨(lifecycle_gating_amended demoState 2592000 9 2000000 2000000 5 true).1 (by decide),
    (lifecycle_gating_amended demoState 5 9 2000000 2000000 5 true).2.2.1 (by decide),
    (lifecycle_gating_amended demoState 0 9 2000000 2000000 5 true).2.2.2.2.2 .grantPublic rfl⟩

/-! ### Claim C9: the goal-met flag of the CampaignEnded event
(corrected) -/

/-- C9 counterexample.  Finalising the demo campaign after a single
contribution of 2 USDC emits CampaignEnded with goalMet = true even
though the decrypted aggregate (2000000) is far below the funding goal
(1000000000): the source computes goalMet as the totalInitialized flag,
not as a comparison with the goal. -/
theorem campaignEnded_goalMet_ignores_goal :
    (exec demoState [.contribute 5 9 2000000 2000000 true, .finalize 2592000]).events =
      [Ev.Contributed 9 true 5, Ev.CampaignEnded true 2592000] ∧
    decryptTotal (exec demoState [.contribute 5 9 2000000 2000000 true, .finalize 2592000]) <
      (exec demoState [.contribute 5 9 2000000 2000000 true, .finalize 2592000]).camp.fundingGoal := by
  refine ⟨by decide, by decide⟩

/-- C9 amended.  When finalize succeeds, the emitted CampaignEnded
event carries as goal-met flag exactly the totalInitialized flag of the
campaign: true exactly when at least one contribution was accepted,
regardless of whether the aggregate reaches the goal. -/
theorem finalize_event_flag_is_initialized (s : S) (now : Nat)
    (h1 : s.camp.deadline ≤ now) (h2 : s.camp.campaignFinalized = false) :
    ∃ s2, finalizeCampaign now s = .ok s2 ∧
      s2.camp.campaignFinalized = true ∧
      s2.events = s.events ++ [Ev.CampaignEnded s.camp.totalInitialized now] := by
  refine ⟨{ s with
      camp := { s.camp with campaignFinalized := true }
      events := s.events ++ [Ev.CampaignEnded s.camp.totalInitialized now] }, ?_, ?_, ?_⟩
  · simp [finalizeCampaign, Nat.not_lt.mpr h1, h2]
  · rfl
  · rfl

/-- C9 witness: finalising the fresh demo campaign at its deadline
emits CampaignEnded with flag equal to its (false) initialized flag. -/
theorem finalize_event_flag_witness :
    ∃ s2, finalizeCampaign 2592000 demoState = .ok s2 ∧
      s2.camp.campaignFinalized = true ∧
      s2.events = demoState.events ++ [Ev.CampaignEnded demoState.camp.totalInitialized 2592000] :=
  finalize_event_flag_is_initialized demoState 2592000 (by decide) (by decide)

/-! ### Claim C10: deadline extension does not require an active
campaign (corrected for uint64 overflow) -/

/-- C10 counterexample.  In the expired (non-finalized) demo state, the
owner call extendDeadline with the positive day count 2^60 does not
succeed: the checked uint64 multiplication additionalDays * 1 days
overflows and the call reverts. -/
theorem extendDeadline_overflow_reverts :
    (0 : Nat) < 2 ^ 60 ∧
    demoState.camp.campaignFinalized = false ∧
    demoState.camp.deadline ≤ 2592000 ∧
    extendDeadline 2592000 1 (2 ^ 60) demoState = .error Err.ArithmeticOverflow := by
  refine ⟨by decide, by decide, by decide, rfl⟩

/-- C10 amended.  For every non-finalized state — also an expired one —
an owner call to extendDeadline with a positive number of extra days
succeeds provided the uint64 arithmetic does not overflow, pushes the
deadline forward by days * 86400 seconds, and if the new deadline then
exceeds the current time the campaign is active again and the
campaignActive gate passes, so contributions are accepted again. -/
theorem extendDeadline_revives_expired (s : S) (now sender days : Nat)
    (hf : s.camp.campaignFinalized = false) (ho : sender = s.camp.owner)
    (hd : 0 < days) (hm : days * 86400 < U64MOD)
    (ha : s.camp.deadline + days * 86400 < U64MOD) :
    ∃ s2, extendDeadline now sender days s = .ok s2 ∧
      s2.camp.deadline = s.camp.deadline + days * 86400 ∧
      s2.camp.campaignFinalized = false ∧
      ∀ now2, now2 < s2.camp.deadline →
        isActive now2 s2 = true ∧ campaignActiveCheck now2 s2.camp = .ok () := by
  refine ⟨{ s with
      camp := { s.camp with deadline := s.camp.deadline + days * 86400 }
      events := s.events ++ [Ev.DeadlineExtended s.camp.deadline (s.camp.deadline + days * 86400)] },
    ?_, ?_, ?_, ?_⟩
  · simp [extendDeadline, ho, hf, Nat.pos_iff_ne_zero.mp hd, Nat.not_le.mpr hm, Nat.not_le.mpr ha]
  · rfl
  · exact hf
  · intro now2 h2
    exact ⟨by simp [isActive, hf, h2], by simp [campaignActiveCheck, hf, Nat.not_le.mpr h2]⟩

/-- C10 witness: extending the expired demo campaign by 10 days
succeeds and reactivates it. -/
theorem extendDeadline_revives_witness :
    ∃ s2, extendDeadline 2592000 1 10 demoState = .ok s2 ∧
      s2.camp.deadline = demoState.camp.deadline + 10 * 86400 ∧
      s2.camp.campaignFinalized = false ∧
      ∀ now2, now2 < s2.camp.deadline →
        isActive now2 s2 = true ∧ campaignActiveCheck now2 s2.camp = .ok () :=
  extendDeadline_revives_expired demoState 2592000 1 10 (by decide) (by decide)
    (by decide) (by decide) (by decide)

/-- A successful contribution always leaves the aggregate initialised. -/
theorem contributeUSDC_ok_init (now sender a v : Nat) (tOk : Bool) (s s2 : S)
    (h : contributeUSDC now sender a v tOk s = .ok s2) :
    s2.camp.totalInitialized = true := by
  revert h
  unfold contributeUSDC
  split
  · intro h; cases h
  · intro h; cases h
    exact (contributeEffects_config now sender v s).2.2.2.2.2.2.2.2.2

/-- No transaction other than a contribution changes the
totalInitialized flag. -/
theorem step_ok_init_preserved (s s2 : S) (op : Op) (h : step s op = .ok s2)
    (hop : op.isContribute = false) :
    s2.camp.totalInitialized = s.camp.totalInitialized := by
  cases op with
  | contribute now sender a v tOk => simp [Op.isContribute] at hop
  | checkGoal now sender =>
      simp only [step, checkGoalReached] at h
      cases h
      exact (updateGoalStatusFn_config sender s).2.1
  | finalize now =>
      revert h
      simp only [step]
      unfold finalizeCampaign
      split
      · intro h; cases h
      · split
        · intro h; cases h
        · intro h; cases h; rfl
  | updateGoal now sender g =>
      revert h
      simp only [step]
      unfold updateGoal
      split
      · intro h; cases h
      · split
        · intro h; cases h
        · split
          · intro h; cases h
          · intro h; cases h
            exact (updateGoalStatusFn_config sender { s with camp := { s.camp with fundingGoal := g } }).2.1
  | extendDeadline now sender d =>
      revert h
      simp only [step]
      unfold extendDeadline
      split
      · intro h; cases h
      · split
        · intro h; cases h
        · split
          · intro h; cases h
          · split
            · intro h; cases h
            · split
              · intro h; cases h
              · intro h; cases h; rfl
  | grantPublic =>
      simp only [step] at h
      cases h
      rfl

/-- The aggregate value after a contribution into an initialised
aggregate: the new handle is fresh and holds the wrapped homomorphic
sum, for a first-time and for a repeat contributor alike. -/
theorem contributeEffects_init_total (now sender v : Nat) (s : S)
    (hI : s.camp.totalInitialized = true) (hwf : s.camp.totalRaisedEnc < s.env.ct.length) :
    (contributeEffects now sender v s).camp.totalRaisedEnc <
      (contributeEffects now sender v s).env.ct.length ∧
    decryptTotal (contributeEffects now sender v s) = (decryptTotal s + v % U64MOD) % U64MOD := by
  cases hF : s.camp.hasContributedMap sender
  · rw [contributeEffects_init_first now sender v s hI hF hwf]
    simp [decryptTotal, FheEnv.ptv, List.getElem?_append_right, List.getElem_append_right,
      Nat.add_assoc]
  · simp only [contributeEffects, setDecryptionPermissions, updateGoalStatusFn, decryptTotal,
      FheEnv.fromExternal, FheEnv.addEnc, FheEnv.asEuint64, FheEnv.asEbool, FheEnv.geEnc,
      FheEnv.alloc, FheEnv.allow, FheEnv.ptv, hI, hF, Bool.not_false, Bool.not_true,
      if_true, if_false, ite_true, ite_false, List.append_assoc, List.singleton_append,
      List.cons_append, List.length_append, List.length_cons, List.length_nil,
      getD_append_len, getD_append_len_succ, List.nil_append,
      getD_append_old _ _ _ hwf]
    simp [hI, hF, hwf, Nat.add_assoc, List.getElem?_append_right, List.getElem?_append_left,
      List.getElem_append_right, List.getElem_append_left]

/-- The aggregate value after a contribution into an uninitialised
aggregate: the fresh amount handle itself, for a first-time and for a
repeat contributor alike. -/
theorem contributeEffects_uninit_total (now sender v : Nat) (s : S)
    (hI : s.camp.totalInitialized = false) :
    (contributeEffects now sender v s).camp.totalRaisedEnc <
      (contributeEffects now sender v s).env.ct.length ∧
    decryptTotal (contributeEffects now sender v s) = v % U64MOD := by
  cases hF : s.camp.hasContributedMap sender
  · rw [contributeEffects_uninit_first now sender v s hI hF]
    simp [decryptTotal, FheEnv.ptv, List.getElem?_append_right, List.getElem_append_right,
      Nat.add_assoc]
  · simp only [contributeEffects, setDecryptionPermissions, updateGoalStatusFn, decryptTotal,
      FheEnv.fromExternal, FheEnv.addEnc, FheEnv.asEuint64, FheEnv.asEbool, FheEnv.geEnc,
      FheEnv.alloc, FheEnv.allow, FheEnv.ptv, hI, hF, Bool.not_false, Bool.not_true,
      if_true, if_false, ite_true, ite_false, List.append_assoc, List.singleton_append,
      List.cons_append, List.length_append, List.length_cons, List.length_nil,
      getD_append_len, getD_append_len_succ, List.nil_append]
    simp [hI, hF, Nat.add_assoc, List.getElem?_append_right, List.getElem?_append_left,
      List.getElem_append_right, List.getElem_append_left]

/-! ### Claim C1: aggregate folding and the one-shot initialized flag -/

/-- C1.  An accepted contribution into an uninitialised aggregate sets
the aggregate to the contributed encrypted amount and flips the flag to
true; an accepted contribution into an initialised aggregate replaces
the aggregate by the wrapped homomorphic sum; the flag, once true, is
never unset by any transaction; and from an uninitialised state a
transaction turns the flag true exactly when it is an accepted
contribution. -/
theorem aggregate_fold_and_single_initialization (s : S) (now sender amount6 encVal : Nat) :
    (s.camp.totalInitialized = false →
      now < s.camp.deadline → s.camp.campaignFinalized = false → amount6 ≠ 0 →
      s.camp.minContribution ≤ amount6 → amount6 ≤ s.camp.maxContribution →
      ∃ s2, contributeUSDC now sender amount6 encVal true s = .ok s2 ∧
        s2.camp.totalInitialized = true ∧ decryptTotal s2 = encVal % U64MOD) ∧
    (s.camp.totalInitialized = true → s.camp.totalRaisedEnc < s.env.ct.length →
      now < s.camp.deadline → s.camp.campaignFinalized = false → amount6 ≠ 0 →
      s.camp.minContribution ≤ amount6 → amount6 ≤ s.camp.maxContribution →
      ∃ s2, contributeUSDC now sender amount6 encVal true s = .ok s2 ∧
        s2.camp.totalInitialized = true ∧
        decryptTotal s2 = (decryptTotal s + encVal % U64MOD) % U64MOD) ∧
    (∀ op : Op, s.camp.totalInitialized = true → (execOp s op).camp.totalInitialized = true) ∧
    (∀ op : Op, s.camp.totalInitialized = false →
      ((execOp s op).camp.totalInitialized = true ↔
        op.isContribute = true ∧ ∃ s2, step s op = .ok s2)) := by
  refine ⟨?_, ?_, ?_, ?_⟩
  · intro hI h1 h2 h3 h4 h5
    exact ⟨contributeEffects now sender encVal s,
      contributeUSDC_ok now sender amount6 encVal s h1 h2 h3 h4 h5,
      (contributeEffects_config now sender encVal s).2.2.2.2.2.2.2.2.2,
      (contributeEffects_uninit_total now sender encVal s hI).2⟩
  · intro hI hwf h1 h2 h3 h4 h5
    exact ⟨contributeEffects now sender encVal s,
      contributeUSDC_ok now sender amount6 encVal s h1 h2 h3 h4 h5,
      (contributeEffects_config now sender encVal s).2.2.2.2.2.2.2.2.2,
      (contributeEffects_init_total now sender encVal s hI hwf).2⟩
  · intro op hI
    cases hstep : step s op with
    | error e => rw [execOp_of_error s op e hstep]; exact hI
    | ok s2 =>
        have hexec : execOp s op = s2 := by simp [execOp, hstep]
        rw [hexec]
        cases op with
        | contribute now2 sender2 a2 v2 tOk2 =>
            exact contributeUSDC_ok_init now2 sender2 a2 v2 tOk2 s s2 (by simpa [step] using hstep)
        | checkGoal now2 sender2 => rw [step_ok_init_preserved s s2 _ hstep rfl]; exact hI
        | finalize now2 => rw [step_ok_init_preserved s s2 _ hstep rfl]; exact hI
        | updateGoal now2 sender2 g2 => rw [step_ok_init_preserved s s2 _ hstep rfl]; exact hI
        | extendDeadline now2 sender2 d2 => rw [step_ok_init_preserved s s2 _ hstep rfl]; exact hI
        | grantPublic => rw [step_ok_init_preserved s s2 _ hstep rfl]; exact hI
  · intro op hI
    constructor
    · intro hinit
      cases hstep : step s op with
      | error e =>
          rw [execOp_of_error s op e hstep, hI] at hinit
          cases hinit
      | ok s2 =>
          have hexec : execOp s op = s2 := by simp [execOp, hstep]
          rw [hexec] at hinit
          by_cases hc : op.isContribute = true
          · exact ⟨hc, s2, rfl⟩
          · rw [step_ok_init_preserved s s2 op hstep (by simpa using hc), hI] at hinit
            cases hinit
    · rintro ⟨hc, s2, hstep⟩
      have hexec : execOp s op = s2 := by simp [execOp, hstep]
      rw [hexec]
      cases op with
      | contribute now2 sender2 a2 v2 tOk2 =>
          exact contributeUSDC_ok_init now2 sender2 a2 v2 tOk2 s s2 (by simpa [step] using hstep)
      | checkGoal now2 sender2 => simp [Op.isContribute] at hc
      | finalize now2 => simp [Op.isContribute] at hc
      | updateGoal now2 sender2 g2 => simp [Op.isContribute] at hc
      | extendDeadline now2 sender2 d2 => simp [Op.isContribute] at hc
      | grantPublic => simp [Op.isContribute] at hc

/-- C1 witness: at the demo deployment a first accepted contribution
initialises the aggregate with the contributed amount, and the
non-contribution grantPublic transaction does not flip the flag. -/
theorem aggregate_fold_witness :
    (∃ s2, contributeUSDC 5 9 2000000 2000000 true demoState = .ok s2 ∧
      s2.camp.totalInitialized = true ∧ decryptTotal s2 = 2000000 % U64MOD) ∧
    ((execOp demoState .grantPublic).camp.totalInitialized = true ↔
      Op.isContribute .grantPublic = true ∧ ∃ s2, step demoState .grantPublic = .ok s2) := by
  refine ⟨(aggregate_fold_and_single_initialization demoState 5 9 2000000 2000000).1
      (by decide) (by decide) (by decide) (by decide) (by decide) (by decide),
    (aggregate_fold_and_single_initialization demoState 0 0 0 0).2.2.2 .grantPublic (by decide)⟩

/-! ### Claim C7: contributor counting and per-contributor records -/

/-- C7.  An accepted contribution from an identity with no prior record
creates the record with the contributed amount, marks the identity as
having contributed, increments the contributor count by exactly one
(below the uint64 wrap) and is reported first-time; an accepted
contribution from an identity with a record leaves the count unchanged
and homomorphically adds to the record, reported as a repeat. -/
theorem contributor_count_first_vs_repeat (s : S) (now sender amount6 encVal : Nat)
    (h1 : now < s.camp.deadline) (h2 : s.camp.campaignFinalized = false) (h3 : amount6 ≠ 0)
    (h4 : s.camp.minContribution ≤ amount6) (h5 : amount6 ≤ s.camp.maxContribution)
    (hwfT : s.camp.totalInitialized = true → s.camp.totalRaisedEnc < s.env.ct.length) :
    (s.camp.hasContributedMap sender = false → s.camp.contributorCount + 1 < U64MOD →
      ∃ s2, contributeUSDC now sender amount6 encVal true s = .ok s2 ∧
        s2.camp.contributorCount = s.camp.contributorCount + 1 ∧
        s2.camp.hasContributedMap sender = true ∧
        decryptRecord s2 sender = encVal % U64MOD ∧
        s2.events = s.events ++ [Ev.Contributed sender true now]) ∧
    (s.camp.hasContributedMap sender = true → s.camp.totalInitialized = true →
      s.camp.contributionAmounts sender < s.env.ct.length →
      ∃ s2, contributeUSDC now sender amount6 encVal true s = .ok s2 ∧
        s2.camp.contributorCount = s.camp.contributorCount ∧
        s2.camp.hasContributedMap sender = true ∧
        decryptRecord s2 sender = (decryptRecord s sender + encVal % U64MOD) % U64MOD ∧
        s2.events = s.events ++ [Ev.Contributed sender false now]) := by
  constructor
  · intro hF hcnt
    cases hI : s.camp.totalInitialized
    · refine ⟨_, contributeUSDC_ok now sender amount6 encVal s h1 h2 h3 h4 h5, ?_, ?_, ?_, ?_⟩ <;>
        rw [contributeEffects_uninit_first now sender encVal s hI hF] <;>
        simp [decryptRecord, FheEnv.ptv, Nat.mod_eq_of_lt hcnt, List.getElem?_append_right,
          List.getElem_append_right, Nat.add_assoc]
    · refine ⟨_, contributeUSDC_ok now sender amount6 encVal s h1 h2 h3 h4 h5, ?_, ?_, ?_, ?_⟩ <;>
        rw [contributeEffects_init_first now sender encVal s hI hF (hwfT hI)] <;>
        simp [decryptRecord, FheEnv.ptv, Nat.mod_eq_of_lt hcnt, List.getElem?_append_right,
          List.getElem_append_right, Nat.add_assoc]
  · intro hF hI hwfr
    refine ⟨_, contributeUSDC_ok now sender amount6 encVal s h1 h2 h3 h4 h5, ?_, ?_, ?_, ?_⟩ <;>
      rw [contributeEffects_init_repeat now sender encVal s hI hF (hwfT hI) hwfr] <;>
      simp [decryptRecord, FheEnv.ptv, hF, List.getElem?_append_right,
        List.getElem_append_right, Nat.add_assoc]

/-- C7 witness: at the demo deployment, address 9 is counted on its
first contribution and not on its second one, whose record becomes the
homomorphic sum 5000000. -/
theorem contributor_count_witness :
    (∃ s2, contributeUSDC 5 9 2000000 2000000 true demoState = .ok s2 ∧
      s2.camp.contributorCount = demoState.camp.contributorCount + 1 ∧
      s2.camp.hasContributedMap 9 = true ∧
      decryptRecord s2 9 = 2000000 % U64MOD ∧
      s2.events = demoState.events ++ [Ev.Contributed 9 true 5]) ∧
    (∃ s2, contributeUSDC 6 9 3000000 3000000 true
        (execOp demoState (.contribute 5 9 2000000 2000000 true)) = .ok s2 ∧
      s2.camp.contributorCount =
        (execOp demoState (.contribute 5 9 2000000 2000000 true)).camp.contributorCount ∧
      s2.camp.hasContributedMap 9 = true ∧
      decryptRecord s2 9 =
        (decryptRecord (execOp demoState (.contribute 5 9 2000000 2000000 true)) 9 +
          3000000 % U64MOD) % U64MOD ∧
      s2.events = (execOp demoState (.contribute 5 9 2000000 2000000 true)).events ++
        [Ev.Contributed 9 false 6]) := by
  refine ⟨(contributor_count_first_vs_repeat demoState 5 9 2000000 2000000
      (by decide) (by decide) (by decide) (by decide) (by decide) (by decide)).1
      (by decide) (by decide),
    (contributor_count_first_vs_repeat (execOp demoState (.contribute 5 9 2000000 2000000 true))
      6 9 3000000 3000000
      (by decide) (by decide) (by decide) (by decide) (by decide) (by decide)).2
      (by decide) (by decide) (by decide)⟩

/-! ### Claim C8: goal status recomputation -/

/-- Goal status cache value produced by one recomputation. -/
theorem updateGoalStatusFn_status (sender : Nat) (s : S) :
    (s.camp.totalInitialized = false → decryptStatus (updateGoalStatusFn sender s).2 = 0) ∧
    (s.camp.totalInitialized = true → s.camp.totalRaisedEnc < s.env.ct.length →
      decryptStatus (updateGoalStatusFn sender s).2 =
        if s.camp.fundingGoal % U64MOD ≤ decryptTotal s then 1 else 0) := by
  constructor
  · intro hI
    simp [updateGoalStatusFn, decryptStatus, FheEnv.asEbool, FheEnv.alloc, FheEnv.allow,
      FheEnv.ptv, hI, getD_append_len]
  · intro hI hwf
    simp [updateGoalStatusFn, decryptStatus, decryptTotal, FheEnv.asEuint64, FheEnv.geEnc,
      FheEnv.alloc, FheEnv.allow, FheEnv.ptv, hI, hwf, getD_append_len, getD_append_len_succ,
      getD_append_old _ _ _ hwf, List.getElem?_append_right, List.getElem_append_right,
      List.getElem?_append_left, List.getElem_append_left, Nat.add_assoc, List.append_assoc]

/-- Reading an old handle is unchanged by one recomputation. -/
theorem updateGoalStatusFn_ptv (sender : Nat) (s : S) (h : Nat) (hh : h < s.env.ct.length) :
    (updateGoalStatusFn sender s).2.env.ptv h = s.env.ptv h := by
  cases hI : s.camp.totalInitialized <;>
    simp [updateGoalStatusFn, FheEnv.asEbool, FheEnv.asEuint64, FheEnv.geEnc, FheEnv.alloc,
      FheEnv.allow, FheEnv.ptv, hI, hh, List.append_assoc, getD_append_old _ _ _ hh,
      List.getElem?_append_left]

/-- The cache after the effects of a contribution encodes the
comparison of the new aggregate against the (encoded) goal. -/
theorem contributeEffects_status (now sender v : Nat) (s : S) :
    decryptStatus (contributeEffects now sender v s) =
      if s.camp.fundingGoal % U64MOD ≤ decryptTotal (contributeEffects now sender v s) then 1
      else 0 := by
  cases hI : s.camp.totalInitialized <;> cases hF : s.camp.hasContributedMap sender <;>
    simp only [contributeEffects, setDecryptionPermissions, updateGoalStatusFn, decryptStatus,
      decryptTotal, FheEnv.fromExternal, FheEnv.addEnc, FheEnv.asEuint64, FheEnv.asEbool,
      FheEnv.geEnc, FheEnv.alloc, FheEnv.allow, FheEnv.ptv, hI, hF, Bool.not_false,
      Bool.not_true, if_true, if_false, ite_true, ite_false, List.append_assoc,
      List.singleton_append, List.cons_append, List.length_append, List.length_cons,
      List.length_nil, getD_append_len, getD_append_len_succ, List.nil_append] <;>
    simp [hI, hF, Nat.add_assoc, List.getElem?_append_right, List.getElem?_append_left,
      List.getElem_append_right, List.getElem_append_left]

/-- A successful owner goal update in explicit form. -/
theorem updateGoal_ok_eq (now newGoal : Nat) (s : S)
    (h1 : now < s.camp.deadline) (h2 : s.camp.campaignFinalized = false) (hg : newGoal ≠ 0) :
    updateGoal now s.camp.owner newGoal s =
      .ok { (updateGoalStatusFn s.camp.owner { s with camp := { s.camp with fundingGoal := newGoal } }).2 with
        events := (updateGoalStatusFn s.camp.owner { s with camp := { s.camp with fundingGoal := newGoal } }).2.events
          ++ [Ev.GoalUpdated s.camp.fundingGoal newGoal] } := by
  simp [updateGoal, campaignActiveCheck, Nat.not_le.mpr h1, h2, hg]

/-- C8.  Recomputing the goal status caches an encrypted false when the
aggregate is uninitialised, and otherwise the homomorphic comparison of
the aggregate against the encoded goal; the recomputation runs inside
every accepted contribution and every successful goal update, so
afterwards the cache decrypts to true exactly when the decrypted
aggregate is at least the (encoded) goal. -/
theorem goal_status_recompute_correct (s : S) (now sender amount6 encVal newGoal : Nat) :
    (s.camp.totalInitialized = false → decryptStatus (updateGoalStatusFn sender s).2 = 0) ∧
    (s.camp.totalInitialized = true → s.camp.totalRaisedEnc < s.env.ct.length →
      s.camp.fundingGoal < U64MOD →
      (decryptStatus (updateGoalStatusFn sender s).2 = 1 ↔
        s.camp.fundingGoal ≤ decryptTotal s)) ∧
    (now < s.camp.deadline → s.camp.campaignFinalized = false → amount6 ≠ 0 →
      s.camp.minContribution ≤ amount6 → amount6 ≤ s.camp.maxContribution →
      ∃ s2, contributeUSDC now sender amount6 encVal true s = .ok s2 ∧
        (decryptStatus s2 = 1 ↔ s.camp.fundingGoal % U64MOD ≤ decryptTotal s2)) ∧
    (now < s.camp.deadline → s.camp.campaignFinalized = false → newGoal ≠ 0 →
      s.camp.totalInitialized = true → s.camp.totalRaisedEnc < s.env.ct.length →
      newGoal < U64MOD →
      ∃ s2, updateGoal now s.camp.owner newGoal s = .ok s2 ∧
        decryptTotal s2 = decryptTotal s ∧
        (decryptStatus s2 = 1 ↔ newGoal ≤ decryptTotal s)) := by
  refine ⟨(updateGoalStatusFn_status sender s).1, ?_, ?_, ?_⟩
  · intro hI hwf hlt
    rw [(updateGoalStatusFn_status sender s).2 hI hwf, Nat.mod_eq_of_lt hlt]
    split_ifs with h <;> simp [h]
  · intro h1 h2 h3 h4 h5
    refine ⟨contributeEffects now sender encVal s,
      contributeUSDC_ok now sender amount6 encVal s h1 h2 h3 h4 h5, ?_⟩
    rw [contributeEffects_status now sender encVal s]
    split_ifs with h <;> simp [h]
  · intro h1 h2 hg hI hwf hlt
    rw [updateGoal_ok_eq now newGoal s h1 h2 hg]
    refine ⟨_, rfl, ?_, ?_⟩
    · exact updateGoalStatusFn_ptv s.camp.owner
        { s with camp := { s.camp with fundingGoal := newGoal } } s.camp.totalRaisedEnc hwf
    · have hs2 : decryptStatus (updateGoalStatusFn s.camp.owner
          { s with camp := { s.camp with fundingGoal := newGoal } }).2 =
          if newGoal % U64MOD ≤ decryptTotal s then 1 else 0 :=
        (updateGoalStatusFn_status s.camp.owner
          { s with camp := { s.camp with fundingGoal := newGoal } }).2 hI hwf
      rw [show decryptStatus { (updateGoalStatusFn s.camp.owner { s with camp := { s.camp with fundingGoal := newGoal } }).2 with
          events := (updateGoalStatusFn s.camp.owner { s with camp := { s.camp with fundingGoal := newGoal } }).2.events
            ++ [Ev.GoalUpdated s.camp.fundingGoal newGoal] } =
        decryptStatus (updateGoalStatusFn s.camp.owner { s with camp := { s.camp with fundingGoal := newGoal } }).2 from rfl,
        hs2, Nat.mod_eq_of_lt hlt]
      split_ifs with h <;> simp [h]

/-- C8 witness: before any contribution the demo cache recomputes to an
encrypted false, and after an accepted 2 USDC contribution the cache
encodes the comparison of the aggregate against the goal. -/
theorem goal_status_witness :
    decryptStatus (updateGoalStatusFn 9 demoState).2 = 0 ∧
    (∃ s2, contributeUSDC 5 9 2000000 2000000 true demoState = .ok s2 ∧
      (decryptStatus s2 = 1 ↔ demoState.camp.fundingGoal % U64MOD ≤ decryptTotal s2)) := by
  refine ⟨(goal_status_recompute_correct demoState 5 9 2000000 2000000 5).1 (by decide),
    (goal_status_recompute_correct demoState 5 9 2000000 2000000 5).2.2.1
      (by decide) (by decide) (by decide) (by decide) (by decide)⟩

/-! ### Claim C2: order independence of the aggregate -/

/-- A contribution transaction from a (time, sender, amount) triple:
the encrypted amount equals the stated amount and the transfer
succeeds. -/
def contribOp (p : Nat × Nat × Nat) : Op := .contribute p.1 p.2.1 p.2.2 p.2.2 true

/-- Folding accepted contributions into an initialised aggregate adds
the amounts modulo 2^64, keeps the aggregate initialised and keeps the
aggregate handle well formed. -/
theorem exec_contribs_init (l : List (Nat × Nat × Nat)) (s : S)
    (hI : s.camp.totalInitialized = true)
    (hwf : s.camp.totalRaisedEnc < s.env.ct.length)
    (hv : decryptTotal s < U64MOD)
    (hfin : s.camp.campaignFinalized = false)
    (hmin : 0 < s.camp.minContribution)
    (hb : ∀ p ∈ l, p.1 < s.camp.deadline ∧ s.camp.minContribution ≤ p.2.2 ∧
      p.2.2 ≤ s.camp.maxContribution ∧ p.2.2 < U64MOD) :
    (exec s (l.map contribOp)).camp.totalInitialized = true ∧
    decryptTotal (exec s (l.map contribOp)) =
      (decryptTotal s + (l.map fun p => p.2.2).sum) % U64MOD := by
  induction l generalizing s with
  | nil =>
      refine ⟨by simpa [exec] using hI, ?_⟩
      simpa [exec] using (Nat.mod_eq_of_lt hv).symm
  | cons p rest ih =>
      obtain ⟨hp1, hp2, hp3, hp4⟩ := hb p (List.mem_cons_self p rest)
      have hstep : step s (contribOp p) = .ok (contributeEffects p.1 p.2.1 p.2.2 s) := by
        simpa [step, contribOp] using contributeUSDC_ok p.1 p.2.1 p.2.2 p.2.2 s hp1 hfin
          (Nat.pos_iff_ne_zero.mp (lt_of_lt_of_le hmin hp2)) hp2 hp3
      have hexec : exec s ((p :: rest).map contribOp) =
          exec (contributeEffects p.1 p.2.1 p.2.2 s) (rest.map contribOp) := by
        simp [exec, execOp, hstep]
      have hcfg := contributeEffects_config p.1 p.2.1 p.2.2 s
      have htot := contributeEffects_init_total p.1 p.2.1 p.2.2 s hI hwf
      have hb1 : ∀ q ∈ rest, q.1 < (contributeEffects p.1 p.2.1 p.2.2 s).camp.deadline ∧
          (contributeEffects p.1 p.2.1 p.2.2 s).camp.minContribution ≤ q.2.2 ∧
          q.2.2 ≤ (contributeEffects p.1 p.2.1 p.2.2 s).camp.maxContribution ∧
          q.2.2 < U64MOD := by
        intro q hq
        rw [hcfg.2.1, hcfg.2.2.1, hcfg.2.2.2.1]
        exact hb q (List.mem_cons_of_mem p hq)
      have hv1 : decryptTotal (contributeEffects p.1 p.2.1 p.2.2 s) < U64MOD := by
        rw [htot.2]
        exact Nat.mod_lt _ (by decide)
      obtain ⟨ih1, ih2⟩ := ih (contributeEffects p.1 p.2.1 p.2.2 s)
        hcfg.2.2.2.2.2.2.2.2.2 htot.1 hv1 (by rw [hcfg.1]; exact hfin)
        (by rw [hcfg.2.2.1]; exact hmin) hb1
      refine ⟨by rwa [hexec], ?_⟩
      rw [hexec, ih2, htot.2, Nat.mod_eq_of_lt hp4, List.map_cons, List.sum_cons,
        Nat.mod_add_mod, Nat.add_assoc]

/-- Folding accepted contributions into a fresh aggregate yields the
wrapped sum of the amounts. -/
theorem exec_contribs_uninit (l : List (Nat × Nat × Nat)) (s : S)
    (hI : s.camp.totalInitialized = false)
    (hv0 : decryptTotal s = 0)
    (hfin : s.camp.campaignFinalized = false)
    (hmin : 0 < s.camp.minContribution)
    (hb : ∀ p ∈ l, p.1 < s.camp.deadline ∧ s.camp.minContribution ≤ p.2.2 ∧
      p.2.2 ≤ s.camp.maxContribution ∧ p.2.2 < U64MOD) :
    decryptTotal (exec s (l.map contribOp)) = ((l.map fun p => p.2.2).sum) % U64MOD := by
  cases l with
  | nil => simpa [exec] using hv0
  | cons p rest =>
      obtain ⟨hp1, hp2, hp3, hp4⟩ := hb p (List.mem_cons_self p rest)
      have hstep : step s (contribOp p) = .ok (contributeEffects p.1 p.2.1 p.2.2 s) := by
        simpa [step, contribOp] using contributeUSDC_ok p.1 p.2.1 p.2.2 p.2.2 s hp1 hfin
          (Nat.pos_iff_ne_zero.mp (lt_of_lt_of_le hmin hp2)) hp2 hp3
      have hexec : exec s ((p :: rest).map contribOp) =
          exec (contributeEffects p.1 p.2.1 p.2.2 s) (rest.map contribOp) := by
        simp [exec, execOp, hstep]
      have hcfg := contributeEffects_config p.1 p.2.1 p.2.2 s
      have htot := contributeEffects_uninit_total p.1 p.2.1 p.2.2 s hI
      have hb1 : ∀ q ∈ rest, q.1 < (contributeEffects p.1 p.2.1 p.2.2 s).camp.deadline ∧
          (contributeEffects p.1 p.2.1 p.2.2 s).camp.minContribution ≤ q.2.2 ∧
          q.2.2 ≤ (contributeEffects p.1 p.2.1 p.2.2 s).camp.maxContribution ∧
          q.2.2 < U64MOD := by
        intro q hq
        rw [hcfg.2.1, hcfg.2.2.1, hcfg.2.2.2.1]
        exact hb q (List.mem_cons_of_mem p hq)
      have hv1 : decryptTotal (contributeEffects p.1 p.2.1 p.2.2 s) < U64MOD := by
        rw [htot.2]
        exact Nat.mod_lt _ (by decide)
      obtain ⟨ih1, ih2⟩ := exec_contribs_init rest (contributeEffects p.1 p.2.1 p.2.2 s)
        hcfg.2.2.2.2.2.2.2.2.2 htot.1 hv1 (by rw [hcfg.1]; exact hfin)
        (by rw [hcfg.2.2.1]; exact hmin) hb1
      rw [hexec, ih2, htot.2, Nat.mod_eq_of_lt hp4, List.map_cons, List.sum_cons]

/-- C2.  Starting from a fresh campaign state, an accepted-contribution
sequence from distinct contributors, executed during the active
campaign, leaves an aggregate that decrypts to the sum of the amounts,
and any permutation of the sequence yields the same decrypted
aggregate. -/
theorem aggregate_order_independence (s : S) (l l2 : List (Nat × Nat × Nat))
    (hperm : l.Perm l2)
    (hI : s.camp.totalInitialized = false)
    (hv0 : decryptTotal s = 0)
    (hfin : s.camp.campaignFinalized = false)
    (hmin : 0 < s.camp.minContribution)
    (hmax : s.camp.maxContribution < U64MOD)
    (hb : ∀ p ∈ l, p.1 < s.camp.deadline ∧ s.camp.minContribution ≤ p.2.2 ∧
      p.2.2 ≤ s.camp.maxContribution)
    (hnd : (l.map fun p => p.2.1).Nodup)
    (hsum : (l.map fun p => p.2.2).sum < U64MOD) :
    decryptTotal (exec s (l.map contribOp)) = (l.map fun p => p.2.2).sum ∧
    decryptTotal (exec s (l2.map contribOp)) = decryptTotal (exec s (l.map contribOp)) := by
  have hb' : ∀ p ∈ l, p.1 < s.camp.deadline ∧ s.camp.minContribution ≤ p.2.2 ∧
      p.2.2 ≤ s.camp.maxContribution ∧ p.2.2 < U64MOD := by
    intro p hp
    obtain ⟨a, b, c⟩ := hb p hp
    exact ⟨a, b, c, lt_of_le_of_lt c hmax⟩
  have hb2 : ∀ p ∈ l2, p.1 < s.camp.deadline ∧ s.camp.minContribution ≤ p.2.2 ∧
      p.2.2 ≤ s.camp.maxContribution ∧ p.2.2 < U64MOD := by
    intro p hp
    exact hb' p (hperm.mem_iff.mpr hp)
  have hsum2 : ((l2.map fun p => p.2.2).sum : Nat) = (l.map fun p => p.2.2).sum :=
    (hperm.map fun p => p.2.2).sum_eq.symm
  have h1 := exec_contribs_uninit l s hI hv0 hfin hmin hb'
  have h2 := exec_contribs_uninit l2 s hI hv0 hfin hmin hb2
  refine ⟨?_, ?_⟩
  · rw [h1, Nat.mod_eq_of_lt hsum]
  · rw [h1, h2, hsum2]

/-- C2 witness: the two demo contributions of 2 USDC and 3 USDC sum to
5 USDC in either order. -/
theorem aggregate_order_witness :
    decryptTotal (exec demoState ([((5 : Nat), (9 : Nat), (2000000 : Nat)), (6, 10, 3000000)].map contribOp)) =
      ([((5 : Nat), (9 : Nat), (2000000 : Nat)), (6, 10, 3000000)].map fun p => p.2.2).sum ∧
    decryptTotal (exec demoState ([((6 : Nat), (10 : Nat), (3000000 : Nat)), (5, 9, 2000000)].map contribOp)) =
      decryptTotal (exec demoState ([((5 : Nat), (9 : Nat), (2000000 : Nat)), (6, 10, 3000000)].map contribOp)) :=
  aggregate_order_independence demoState
    [(5, 9, 2000000), (6, 10, 3000000)] [(6, 10, 3000000), (5, 9, 2000000)]
    (by decide) (by decide) (by decide) (by decide) (by decide) (by decide)
    (by decide) (by decide) (by decide)

/-! ### Claim C5: scoping of per-contributor record grants
(corrected: handle aliasing on the campaign-first contribution) -/

/-- C5 counterexample.  After the very first contribution of the demo
campaign, the record handle of the contributor is the same handle as
the aggregate, and it carries a decryption grant for the oracle
(address 3), which is neither the contributor, nor the owner, nor the
contract. -/
theorem first_contribution_record_oracle_grant :
    (execOp demoState (.contribute 5 9 2000000 2000000 true)).camp.hasContributedMap 9 = true ∧
    (execOp demoState (.contribute 5 9 2000000 2000000 true)).env.mayDecrypt
      ((execOp demoState (.contribute 5 9 2000000 2000000 true)).camp.contributionAmounts 9)
      demoState.camp.oracleAddr ∧
    demoState.camp.oracleAddr ≠ 9 ∧
    demoState.camp.oracleAddr ≠ demoState.camp.owner ∧
    demoState.camp.oracleAddr ≠ demoState.camp.contractAddr := by
  refine ⟨by decide, by decide, by decide, by decide, by decide⟩

/-- C5 amended.  For a contribution accepted into an already
initialised aggregate (with a well formed ACL), the resulting record
handle of the sender carries a grant for the sender and for nobody
else — first-time or repeat alike.  On the campaign-first contribution,
however, the record handle coincides with the aggregate handle, so it
also carries the aggregate grants, in particular one for the oracle. -/
theorem record_grant_scoping_amended (s : S) (now sender amount6 encVal : Nat)
    (h1 : now < s.camp.deadline) (h2 : s.camp.campaignFinalized = false) (h3 : amount6 ≠ 0)
    (h4 : s.camp.minContribution ≤ amount6) (h5 : amount6 ≤ s.camp.maxContribution)
    (hacl : ∀ q ∈ s.env.acl, q.1 < s.env.ct.length) :
    (s.camp.totalInitialized = true → s.camp.totalRaisedEnc < s.env.ct.length →
      s.camp.hasContributedMap sender = false →
      ∃ s2, contributeUSDC now sender amount6 encVal true s = .ok s2 ∧
        ∀ a, s2.env.mayDecrypt (s2.camp.contributionAmounts sender) a ↔ a = sender) ∧
    (s.camp.totalInitialized = true → s.camp.totalRaisedEnc < s.env.ct.length →
      s.camp.hasContributedMap sender = true →
      s.camp.contributionAmounts sender < s.env.ct.length →
      ∃ s2, contributeUSDC now sender amount6 encVal true s = .ok s2 ∧
        ∀ a, s2.env.mayDecrypt (s2.camp.contributionAmounts sender) a ↔ a = sender) ∧
    (s.camp.totalInitialized = false → s.camp.hasContributedMap sender = false →
      ∃ s2, contributeUSDC now sender amount6 encVal true s = .ok s2 ∧
        s2.camp.contributionAmounts sender = s2.camp.totalRaisedEnc ∧
        s2.env.mayDecrypt (s2.camp.contributionAmounts sender) s.camp.oracleAddr) := by
  refine ⟨?_, ?_, ?_⟩
  · intro hI hwf hF
    refine ⟨_, contributeUSDC_ok now sender amount6 encVal s h1 h2 h3 h4 h5, ?_⟩
    rw [contributeEffects_init_first now sender encVal s hI hF hwf]
    intro a
    simp only [FheEnv.mayDecrypt, List.mem_cons, ite_true, if_pos rfl]
    constructor
    · intro hmem
      rcases hmem with h | h | h | h | h | h | h | h | h
      · rw [Prod.mk.injEq] at h; omega
      · rw [Prod.mk.injEq] at h; omega
      · rw [Prod.mk.injEq] at h; omega
      · rw [Prod.mk.injEq] at h; omega
      · rw [Prod.mk.injEq] at h; exact h.2
      · rw [Prod.mk.injEq] at h; omega
      · rw [Prod.mk.injEq] at h; omega
      · rw [Prod.mk.injEq] at h; omega
      · have := hacl _ h; simp at this
    · intro ha
      subst ha
      exact Or.inr (Or.inr (Or.inr (Or.inr (Or.inl rfl))))
  · intro hI hwf hF hwfr
    refine ⟨_, contributeUSDC_ok now sender amount6 encVal s h1 h2 h3 h4 h5, ?_⟩
    rw [contributeEffects_init_repeat now sender encVal s hI hF hwf hwfr]
    intro a
    simp only [FheEnv.mayDecrypt, List.mem_cons, ite_true, if_pos rfl]
    constructor
    · intro hmem
      rcases hmem with h | h | h | h | h | h | h | h | h
      · rw [Prod.mk.injEq] at h; omega
      · rw [Prod.mk.injEq] at h; omega
      · rw [Prod.mk.injEq] at h; omega
      · rw [Prod.mk.injEq] at h; omega
      · rw [Prod.mk.injEq] at h; exact h.2
      · rw [Prod.mk.injEq] at h; omega
      · rw [Prod.mk.injEq] at h; omega
      · rw [Prod.mk.injEq] at h; omega
      · have := hacl _ h; simp at this
    · intro ha
      subst ha
      exact Or.inr (Or.inr (Or.inr (Or.inr (Or.inl rfl))))
  · intro hI hF
    refine ⟨_, contributeUSDC_ok now sender amount6 encVal s h1 h2 h3 h4 h5, ?_, ?_⟩
    · rw [contributeEffects_uninit_first now sender encVal s hI hF]
      simp
    · rw [contributeEffects_uninit_first now sender encVal s hI hF]
      simp only [FheEnv.mayDecrypt, List.mem_cons, if_pos rfl]
      exact Or.inr (Or.inr (Or.inr (Or.inr (Or.inr (Or.inl rfl)))))

/-- C5 witness: with the demo aggregate already initialised by
contributor 9, the record handle created by the first contribution of
contributor 10 is granted to 10 and nobody else; and on the
campaign-first contribution the record handle is the aggregate handle
with its oracle grant. -/
theorem record_grant_scoping_witness :
    (∃ s2, contributeUSDC 6 10 3000000 3000000 true
        (execOp demoState (.contribute 5 9 2000000 2000000 true)) = .ok s2 ∧
      ∀ a, s2.env.mayDecrypt (s2.camp.contributionAmounts 10) a ↔ a = 10) ∧
    (∃ s2, contributeUSDC 5 9 2000000 2000000 true demoState = .ok s2 ∧
      s2.camp.contributionAmounts 9 = s2.camp.totalRaisedEnc ∧
      s2.env.mayDecrypt (s2.camp.contributionAmounts 9) demoState.camp.oracleAddr) := by
  refine ⟨(record_grant_scoping_amended (execOp demoState (.contribute 5 9 2000000 2000000 true))
      6 10 3000000 3000000 (by decide) (by decide) (by decide) (by decide) (by decide)
      (by decide)).1 (by decide) (by decide) (by decide),
    (record_grant_scoping_amended demoState 5 9 2000000 2000000
      (by decide) (by decide) (by decide) (by decide) (by decide)
      (by decide)).2.2 (by decide) (by decide)⟩

/-! ### Claim C6: grants carried by the aggregate and the goal status
after a contribution (corrected: the sender gets no grant on the
aggregate handle) -/

/-- C6 counterexample.  After the second demo contribution (sender 10),
the current aggregate handle carries no grant for sender 10, contrary
to the claim that the acting sender holds decryption permission on the
aggregate-total handle after every accepted contribution. -/
theorem second_contribution_sender_lacks_total_grant :
    (exec demoState [.contribute 5 9 2000000 2000000 true,
        .contribute 6 10 3000000 3000000 true]).events =
      [Ev.Contributed 9 true 5, Ev.Contributed 10 true 6] ∧
    ¬ (exec demoState [.contribute 5 9 2000000 2000000 true,
        .contribute 6 10 3000000 3000000 true]).env.mayDecrypt
      (exec demoState [.contribute 5 9 2000000 2000000 true,
        .contribute 6 10 3000000 3000000 true]).camp.totalRaisedEnc 10 := by
  refine ⟨by decide, by decide⟩

/-- C6 amended.  After every accepted contribution the goal-status
cache handle carries grants for the contract, the owner, the sender and
the oracle, and the aggregate-total handle carries grants for the
contract, the owner and the oracle — but not, in general, for the
sender (the sender holds one only on the campaign-first contribution,
through the aliasing of the aggregate handle with the record handle
that is granted to the sender). -/
theorem post_contribution_grants_amended (s : S) (now sender amount6 encVal : Nat)
    (h1 : now < s.camp.deadline) (h2 : s.camp.campaignFinalized = false) (h3 : amount6 ≠ 0)
    (h4 : s.camp.minContribution ≤ amount6) (h5 : amount6 ≤ s.camp.maxContribution) :
    ∃ s2, contributeUSDC now sender amount6 encVal true s = .ok s2 ∧
      s2.env.mayDecrypt s2.camp.lastGoalReachedCache s2.camp.contractAddr ∧
      s2.env.mayDecrypt s2.camp.lastGoalReachedCache s2.camp.owner ∧
      s2.env.mayDecrypt s2.camp.lastGoalReachedCache sender ∧
      s2.env.mayDecrypt s2.camp.lastGoalReachedCache s2.camp.oracleAddr ∧
      s2.env.mayDecrypt s2.camp.totalRaisedEnc s2.camp.contractAddr ∧
      s2.env.mayDecrypt s2.camp.totalRaisedEnc s2.camp.owner ∧
      s2.env.mayDecrypt s2.camp.totalRaisedEnc s2.camp.oracleAddr := by
  refine ⟨_, contributeUSDC_ok now sender amount6 encVal s h1 h2 h3 h4 h5, ?_⟩
  cases hI : s.camp.totalInitialized <;> cases hF : s.camp.hasContributedMap sender <;>
    simp only [contributeEffects, setDecryptionPermissions, updateGoalStatusFn,
      FheEnv.fromExternal, FheEnv.addEnc, FheEnv.asEuint64, FheEnv.asEbool, FheEnv.geEnc,
      FheEnv.alloc, FheEnv.allow, FheEnv.mayDecrypt, hI, hF, Bool.not_false, Bool.not_true,
      if_true, if_false, ite_true, ite_false, List.append_assoc, List.singleton_append,
      List.cons_append, List.length_append, List.length_cons, List.length_nil,
      List.nil_append, List.mem_cons, if_pos rfl] <;>
    simp [hI, hF]

/-- C6 witness: the grants after the campaign-first demo
contribution. -/
theorem post_contribution_grants_witness :
    ∃ s2, contributeUSDC 5 9 2000000 2000000 true demoState = .ok s2 ∧
      s2.env.mayDecrypt s2.camp.lastGoalReachedCache s2.camp.contractAddr ∧
      s2.env.mayDecrypt s2.camp.lastGoalReachedCache s2.camp.owner ∧
      s2.env.mayDecrypt s2.camp.lastGoalReachedCache 9 ∧
      s2.env.mayDecrypt s2.camp.lastGoalReachedCache s2.camp.oracleAddr ∧
      s2.env.mayDecrypt s2.camp.totalRaisedEnc s2.camp.contractAddr ∧
      s2.env.mayDecrypt s2.camp.totalRaisedEnc s2.camp.owner ∧
      s2.env.mayDecrypt s2.camp.totalRaisedEnc s2.camp.oracleAddr :=
  post_contribution_grants_amended demoState 5 9 2000000 2000000
    (by decide) (by decide) (by decide) (by decide) (by decide)

end PrivFund
